import Mathlib

/-!
# Verification of the stub-generation engine (`cli/module_generate/scripts/generate_stubs.py`)

This file is a shallow embedding of the Python stub-generation script:

* `Expr` / `Stmt` embed the fragment of the Python `ast` node language the
  script manipulates (`ast.Name`, `ast.Attribute`, `ast.Subscript`,
  `ast.Tuple`, `ast.Constant`, `ast.Call`; `ast.Expr`, `ast.AnnAssign`,
  `ast.FunctionDef`, `ast.AsyncFunctionDef`, `ast.ClassDef`, `ast.Raise`,
  `ast.Pass`).
* `update_annot`, `replace_async_func`, `parse_body` / `parse_subclass`
  and `main_collect` / `collectBase` are functional translations of the
  script's `update_annotation` (shortened to `update_annot`; likewise the
  `annotation` field of `Arg` is shortened to `annot`), `replace_async_func`, the inner
  `parse_subclass` of `return_subclass`, and the two collection loops of
  `main`.  Python's in-place mutation is rendered as value-returning
  transformation; the growing `nodes` set is threaded explicitly.
* A small address/heap model (`HNode`, `Heap`, `update_annot_H`) embeds
  the *identity* behaviour of `update_annot` (which Python objects are
  allocated, mutated, returned), which the value-level translation cannot
  express.
* `isortCode` models the external import-sorting collaborator, and
  `finalizeOutput` the tail of `main` (write file, try `black`, fall back on
  failure, then import-sort).
-/

/-- The fragment of Python expression nodes handled by the script.
`attribute` is a dotted (qualified) reference `value.attr`; `subscript` is a
parameterized reference `value[slice]`; `tuple` is the slice of a
multi-argument subscription `Dict[str, int]`. -/
inductive Expr where
  | name (id : String)
  | attribute (value : Expr) (attr : String)
  | subscript (value : Expr) (slice : Expr)
  | tuple (elts : List Expr)
  | constant (s : String)
  | call (func : Expr) (args : List Expr)

/-- A formal parameter: `arg.arg` with an optional `arg.annotation`
(`None` for `self`). -/
structure Arg where
  name : String
  annot : Option Expr

/-- The fragment of Python statement nodes handled by the script. -/
inductive Stmt where
  | expr (e : Expr)
  | annAssign (target : String) (ann : Expr)
  | functionDef (name : String) (args : List Arg) (body : List Stmt)
  | asyncFunctionDef (name : String) (args : List Arg) (body : List Stmt)
      (decorators : List Expr) (returns : Option Expr)
  | classDef (name : String) (bases : List Expr) (body : List Stmt)
  | raiseStmt (exc : Expr)
  | passStmt

/-- `return_attribute(value, attr)`: builds `ast.Attribute(Name(value), attr)`. -/
def return_attribute (value : String) (attr : String) : Expr :=
  .attribute (.name value) attr

/-- The script's `update_annotation(resource_name, annotation, nodes, parent)`
(shortened here to `update_annot`).
A `Name` whose id is in `nodes` becomes `Attribute(Name(parent or
resource_name), id)`; a `Subscript` has (only) its `slice` field updated
recursively; everything else is returned unchanged. -/
def update_annot (resource_name : String) (ann : Expr)
    (nodes : List String) (parent : String) : Expr :=
  match ann with
  | .name id =>
      if id ∈ nodes then
        let value := if parent = "" then resource_name else parent
        return_attribute value id
      else .name id
  | .subscript v sl => .subscript v (update_annot resource_name sl nodes parent)
  | a => a

/-- The first statement of the canonical stub body:
`self.logger.error(f"`{func.name}` is not implemented")`. -/
def logErrorStmt (fname : String) : Stmt :=
  .expr (.call (.attribute (.attribute (.name "self") "logger") "error")
    [.constant ("`" ++ fname ++ "` is not implemented")])

/-- The second statement of the canonical stub body:
`raise NotImplementedError()`. -/
def raiseNotImplemented : Stmt :=
  .raiseStmt (.call (.name "NotImplementedError") [])

/-- The canonical two-statement body installed by `replace_async_func`. -/
def stub_body (fname : String) : List Stmt :=
  [logErrorStmt fname, raiseNotImplemented]

/-- Whether `func.returns` is an `ast.Name` or `ast.Subscript` (the guard on
the final branch of `replace_async_func`). -/
def isNameOrSubscript : Expr → Bool
  | .name _ => true
  | .subscript _ _ => true
  | _ => false

/-- `replace_async_func(resource_name, func, nodes, parent)` restricted to an
`AsyncFunctionDef`: updates every argument annotation, replaces the body with
the canonical stub, clears the decorator list, and updates `returns` when it
is a `Name` or `Subscript`.  Any other statement is untouched. -/
def replace_async_func (resource_name : String) (nodes : List String)
    (parent : String) : Stmt → Stmt
  | .asyncFunctionDef nm args _body _dec rets =>
      .asyncFunctionDef nm
        (args.map fun a =>
          { a with annot :=
              a.annot.map fun ann => update_annot resource_name ann nodes parent })
        (stub_body nm)
        []
        (match rets with
         | some r =>
             if isNameOrSubscript r then
               some (update_annot resource_name r nodes parent)
             else some r
         | none => none)
  | s => s

/-- The statement walk of `parse_subclass` (inner function of
`return_subclass`).  `base` is `stmt.bases[0].id`, the freshly assigned base
of the class being processed; `nodes` is the mutable set of `AnnAssign`
target names seen so far.  Docstring expressions, `__init__` definitions and
`AnnAssign` statements are removed (the source collects them in
`nodes_to_remove` and deletes them after the loop); a nested `ClassDef` is
processed recursively with the current class's new base as parent (that base
always contains a dot, hence is nonempty, so the `parent or resource_name`
default in the source only matters at the root call, handled in
`parse_subclass` below); an `AsyncFunctionDef` is stubbed against the
`nodes` set as it stands when the walk reaches it. -/
def parse_body (r : String) (base : String) : List Stmt → List String → List Stmt
  | [], _ => []
  | c :: rest, nodes =>
    match c with
    | .expr _ => parse_body r base rest nodes
    | .functionDef nm args bd =>
        if nm = "__init__" then parse_body r base rest nodes
        else .functionDef nm args bd :: parse_body r base rest nodes
    | .annAssign tgt _ => parse_body r base rest (tgt :: nodes)
    | .classDef nm _bs bd =>
        let newBase := base ++ "." ++ nm
        let nb := parse_body r newBase bd []
        .classDef nm [.name newBase] (if nb.isEmpty then [.passStmt] else nb)
          :: parse_body r base rest nodes
    | .asyncFunctionDef nm args bd dec rets =>
        replace_async_func r nodes base (.asyncFunctionDef nm args bd dec rets)
          :: parse_body r base rest nodes
    | s => s :: parse_body r base rest nodes
  termination_by body _ => sizeOf body
  decreasing_by all_goals simp_wf <;> omega

/-- `parse_subclass(resource_name, stmt, parent)`: rebases the class to
`(parent or resource_name).name`, walks its body with a fresh empty `nodes`
set, and substitutes `[Pass()]` when pruning emptied the body. -/
def parse_subclass (r : String) (stmt : Stmt) (parent : String) : Stmt :=
  match stmt with
  | .classDef nm _bs bd =>
      let p := if parent = "" then r else parent
      let base := p ++ "." ++ nm
      let nb := parse_body r base bd []
      .classDef nm [.name base] (if nb.isEmpty then [.passStmt] else nb)
  | s => s

/-- The collection loop of `main` over the body of the interface class
(`for cstmt in stmt.body` at the `ClassDef` matching `resource_name`): a
nested `ClassDef` is processed by `return_subclass` (modelled at the AST
level by `parse_subclass` with empty parent), an `AnnAssign` target is added
to the top-level `nodes` set, an `AsyncFunctionDef` is stubbed against the
`nodes` set as it stands and appended to `abstract_methods`.  Every other
statement (in particular any synchronous `FunctionDef`) is skipped entirely.
Returns `(subclasses, abstract_methods, nodes)`. -/
def main_collect (r : String) : List Stmt → List String →
    List Stmt × List Stmt × List String
  | [], nodes => ([], [], nodes)
  | c :: rest, nodes =>
    match c with
    | .classDef nm bs bd =>
        let res := main_collect r rest nodes
        (parse_subclass r (.classDef nm bs bd) "" :: res.1, res.2.1, res.2.2)
    | .annAssign tgt _ => main_collect r rest (tgt :: nodes)
    | .asyncFunctionDef nm args bd dec rets =>
        let res := main_collect r rest nodes
        (res.1,
          replace_async_func r nodes "" (.asyncFunctionDef nm args bd dec rets)
            :: res.2.1,
          res.2.2)
    | _ => main_collect r rest nodes

/-- The inner loop of `main` over a base-type class body
(`replace_async_func("", cstmt, [])` for every `AsyncFunctionDef`): only the
async methods are stubbed and collected; nothing else is emitted. -/
def stubBaseAsyncs : List Stmt → List Stmt
  | [] => []
  | .asyncFunctionDef nm args bd dec rets :: rest =>
      replace_async_func "" [] "" (.asyncFunctionDef nm args bd dec rets)
        :: stubBaseAsyncs rest
  | _ :: rest => stubBaseAsyncs rest

/-- The loop of `main` over the base-type module (`viam.{type}s.{type}_base`):
for every top-level `ClassDef`, its directly contained async methods are
stubbed and appended to `abstract_methods`. -/
def collectBase : List Stmt → List Stmt
  | [] => []
  | .classDef _ _ bd :: rest => stubBaseAsyncs bd ++ collectBase rest
  | _ :: rest => collectBase rest

mutual
/-- Every class declaration occurring in this statement — at any depth,
including inside (async) function bodies — has a nonempty body.  This is the
shape invariant of trees produced by `ast.parse` (Python's grammar requires
at least one statement per block) and the property claimed of emitted
declarations. -/
def noEmptyClassBody : Stmt → Bool
  | .classDef _ _ body => !body.isEmpty && noEmptyClassBodyL body
  | .functionDef _ _ body => noEmptyClassBodyL body
  | .asyncFunctionDef _ _ body _ _ => noEmptyClassBodyL body
  | _ => true

/-- `noEmptyClassBody` over a statement list. -/
def noEmptyClassBodyL : List Stmt → Bool
  | [] => true
  | s :: rest => noEmptyClassBody s && noEmptyClassBodyL rest
end

mutual
/-- Number of abstract methods in a statement: an `AsyncFunctionDef` counts
one (the script treats async = abstract, the convention of the interface
files it consumes); a class declaration contributes the methods of its body;
nothing else declares methods of the interface model. -/
def countAsyncStmt : Stmt → Nat
  | .asyncFunctionDef _ _ _ _ _ => 1
  | .classDef _ _ body => countAsyncL body
  | _ => 0

/-- `countAsyncStmt` summed over a statement list. -/
def countAsyncL : List Stmt → Nat
  | [] => 0
  | s :: rest => countAsyncStmt s + countAsyncL rest
end

/-- Whether a method body is the canonical two-step stub: first the
diagnostic `self.logger.error("`<name>` is not implemented")` naming the
method, then the unconditional `raise NotImplementedError()`. -/
def isCanonicalStubBody (fname : String) : List Stmt → Bool
  | [.expr (.call (.attribute (.attribute (.name slf) lg) er) [.constant msg]),
     .raiseStmt (.call (.name excName) [])] =>
      slf == "self" && lg == "logger" && er == "error" &&
        msg == ("`" ++ fname ++ "` is not implemented") &&
        excName == "NotImplementedError"
  | _ => false

mutual
/-- No `AsyncFunctionDef` occurs anywhere in this statement. -/
def asyncFree : Stmt → Bool
  | .asyncFunctionDef _ _ _ _ _ => false
  | .classDef _ _ body => asyncFreeL body
  | .functionDef _ _ body => asyncFreeL body
  | _ => true

/-- `asyncFree` over a statement list. -/
def asyncFreeL : List Stmt → Bool
  | [] => true
  | s :: rest => asyncFree s && asyncFreeL rest
end

mutual
/-- Every async method reachable in the emitted statements carries the
canonical stub body, and synchronous functions (which pass through the
transformation verbatim) contain no async definitions at all. -/
def stubsCanonical : Stmt → Bool
  | .asyncFunctionDef nm _ body _ _ => isCanonicalStubBody nm body
  | .classDef _ _ body => stubsCanonicalL body
  | .functionDef _ _ body => asyncFreeL body
  | _ => true

/-- `stubsCanonical` over a statement list. -/
def stubsCanonicalL : List Stmt → Bool
  | [] => true
  | s :: rest => stubsCanonical s && stubsCanonicalL rest
end

mutual
/-- Wellformedness of interface declarations as parsed from the SDK sources:
no async method definition hides inside the body of a synchronous function
(methods of the interface model are async defs owned directly by the
interface class or its nested classes). -/
def wfNoAsyncInFn : Stmt → Bool
  | .functionDef _ _ body => asyncFreeL body
  | .classDef _ _ body => wfNoAsyncInFnL body
  | _ => true

/-- `wfNoAsyncInFn` over a statement list. -/
def wfNoAsyncInFnL : List Stmt → Bool
  | [] => true
  | s :: rest => wfNoAsyncInFn s && wfNoAsyncInFnL rest
end

/-- The abstract-method count of the base-type module as the script consumes
it: only async methods directly inside top-level class declarations. -/
def countDirectAsyncL : List Stmt → Nat
  | [] => 0
  | .asyncFunctionDef _ _ _ _ _ :: rest => 1 + countDirectAsyncL rest
  | _ :: rest => countDirectAsyncL rest

/-- `countDirectAsyncL` summed over the top-level classes of the base-type
module. -/
def countAsyncBaseL : List Stmt → Nat
  | [] => 0
  | .classDef _ _ bd :: rest => countDirectAsyncL bd + countAsyncBaseL rest
  | _ :: rest => countAsyncBaseL rest

/-- The statements of the emitted document that derive from the interface
model: the flattened nested-type declarations (`subclasses`), the stubbed
subtype methods and the stubbed category-wide base methods
(`abstract_methods`), in the order `main` writes them into the template. -/
def emittedStmts (r : String) (interfaceBody baseBody : List Stmt) : List Stmt :=
  (main_collect r interfaceBody []).1 ++ (main_collect r interfaceBody []).2.1 ++
    collectBase baseBody

/-- Whether a line of the emitted document is an import line (it opens with
the word `import` or `from`), decided on the character list so that concrete
instances compute. -/
def isImportLine (l : String) : Bool :=
  l.data.take 7 == "import ".data || l.data.take 5 == "from ".data

/-- Modelled from the spec: the external import-sorting collaborator
(`isort.code`, invoked on line 257 of the script) is not part of this
repository's source.  Per the spec's `ImportSpec` contract ("deterministic
ordering (e.g. lexicographic) is required for reproducible output") it is
modelled at line granularity: the import lines of the document are sorted
lexicographically and placed first, the remaining lines keep their original
order. -/
def isortCode (doc : List String) : List String :=
  List.insertionSort (· ≤ ·) (doc.filter fun l => isImportLine l) ++
    (doc.filter fun l => !isImportLine l)

/-- The document assembly of `main` (the template instantiation of lines
234–245) at line granularity: the template's fixed header lines, then the
deduplicated import lines — `list(set(imports))` joined — in whatever order
the Python set iterates them, then the remaining lines (class header,
lifecycle boilerplate, flattened subclasses, stubbed methods). -/
def buildDocument (headerLines importsOrder restLines : List String) : List String :=
  headerLines ++ importsOrder ++ restLines

/-- The tail of `main` (lines 246–258): the emitted text is written to a
scratch file and the external `black` reformatter is invoked on it via
`subprocess.check_call`; a `CalledProcessError` is caught and ignored
(`except ... pass`), leaving `resource_file` as the unformatted text; then
`isort.code` is applied unconditionally and its result returned.  The
external `black` collaborator is modelled as a function returning `none`
exactly when the subprocess exits nonzero (the caught failure) and the
reformatted text otherwise. -/
def finalizeOutput (black : List String → Option (List String))
    (raw : List String) : List String :=
  match black raw with
  | some formatted => isortCode formatted
  | none => isortCode raw

/-- A Python annotation object as it lives in memory: children are referred
to by heap address.  (`other` stands for every node kind whose fields the
identity claim does not inspect.) -/
inductive HNode where
  | name (id : String)
  | attribute (value : Nat) (attr : String)
  | subscript (value : Nat) (slice : Nat)
  | other

/-- A heap of annotation objects: an address map together with the
allocation frontier (every live address is below `next`). -/
structure Heap where
  mem : Nat → Option HNode
  next : Nat

/-- Field assignment (`obj.field = ...`): the object at address `a` is
overwritten in place; no new address comes into existence. -/
def Heap.set (h : Heap) (a : Nat) (n : HNode) : Heap :=
  ⟨fun x => if x = a then some n else h.mem x, h.next⟩

/-- Object construction: a fresh address (`h.next`) now holds `n`. -/
def Heap.alloc (h : Heap) (n : HNode) : Heap × Nat :=
  (⟨fun x => if x = h.next then some n else h.mem x, h.next + 1⟩, h.next)

/-- `return_attribute` at object granularity: `ast.Name(...)` and
`ast.Attribute(...)` each construct a fresh object; the returned address is
the new `Attribute`. -/
def return_attribute_H (h : Heap) (value : String) (attr : String) : Heap × Nat :=
  let av := h.alloc (.name value)
  av.1.alloc (.attribute av.2 attr)

/-- `update_annot` at object granularity, exposing Python's object
identities: the matched-`Name` branch builds and returns a freshly allocated
`Attribute` (`return return_attribute(...)`); the `Subscript` branch
recursively updates the slice, reassigns the `slice` field of the *same*
object (`annotation.slice = update_annot(...)`) and returns the input
address; every other branch returns the input address with the heap
untouched.  Recursion over heap pointers is bounded by explicit `fuel`; the
object graphs produced by `ast.parse` are finite trees, so any fuel at least
the tree depth computes the full transformation. -/
def update_annot_H (resource_name : String) (nodes : List String)
    (parent : String) : Nat → Heap → Nat → Heap × Nat
  | 0, h, a => (h, a)
  | fuel + 1, h, a =>
    match h.mem a with
    | some (.name id) =>
        if id ∈ nodes then
          return_attribute_H h (if parent = "" then resource_name else parent) id
        else (h, a)
    | some (.subscript v sl) =>
        let res := update_annot_H resource_name nodes parent fuel h sl
        (res.1.set a (.subscript v res.2), a)
    | _ => (h, a)

/-- A concrete three-object annotation heap: address 0 holds the
parameterized reference `P[F]` (a `Subscript`), address 1 its base
`Name "P"`, address 2 its slice `Name "F"`. -/
def sampleHeap : Heap :=
  ⟨fun a =>
    if a = 0 then some (.subscript 1 2)
    else if a = 1 then some (.name "P")
    else if a = 2 then some (.name "F")
    else none, 3⟩

/-- Helper: `update_annot` is idempotent, by structural recursion on the
reference (the `Subscript` case is the only recursive one). -/
theorem update_annot_idem (r : String) (nodes : List String) (parent : String) :
    ∀ a, update_annot r (update_annot r a nodes parent) nodes parent =
      update_annot r a nodes parent
  | .name id => by
      by_cases h : id ∈ nodes <;>
        simp [update_annot, return_attribute, h]
  | .subscript v sl => by
      simp [update_annot, update_annot_idem r nodes parent sl]
  | .attribute v a => rfl
  | .tuple es => rfl
  | .constant s => rfl
  | .call f as => rfl

/-- Claim C4 — Idempotence of resolution: for every type reference, fixed
`nodes` set and parent path, `update_annot` is idempotent, and an
already-qualified (`Attribute`) reference is returned unchanged. -/
theorem C4_resolution_idempotent (r : String) (a : Expr) (nodes : List String)
    (parent : String) :
    update_annot r (update_annot r a nodes parent) nodes parent =
      update_annot r a nodes parent ∧
    (∀ v attr, update_annot r (.attribute v attr) nodes parent = .attribute v attr) :=
  ⟨update_annot_idem r nodes parent a, fun _ _ => rfl⟩

/-- Claim C10 — Only asynchronous methods receive stubs: a synchronous
`FunctionDef` directly in the interface class body is skipped by `main`'s
collection loop (it reaches neither `subclasses` nor `abstract_methods`,
hence is absent from the emitted document), while a synchronous non-initializer
`FunctionDef` inside a nested type is kept verbatim, with its original body,
by the flattening walk. -/
theorem C10_sync_methods_not_stubbed (r base nm : String) (args : List Arg)
    (bd rest : List Stmt) (nodes : List String) (h : nm ≠ "__init__") :
    main_collect r (.functionDef nm args bd :: rest) nodes =
      main_collect r rest nodes ∧
    parse_body r base (.functionDef nm args bd :: rest) nodes =
      .functionDef nm args bd :: parse_body r base rest nodes := by
  refine ⟨rfl, ?_⟩
  simp [parse_body, h]

/-- Witness for C10 at a concrete synchronous method named `helper`. -/
theorem C10_sync_methods_not_stubbed_witness :
    main_collect "Gizmo" [.functionDef "helper" [] [.passStmt]] [] =
      main_collect "Gizmo" [] [] ∧
    parse_body "Gizmo" "Gizmo.Properties" [.functionDef "helper" [] [.passStmt]] [] =
      .functionDef "helper" [] [.passStmt] ::
        parse_body "Gizmo" "Gizmo.Properties" [] [] :=
  C10_sync_methods_not_stubbed "Gizmo" "Gizmo.Properties" "helper" [] [.passStmt]
    [] [] (by decide)

/-- Claim C3 counterexample: a `Simple` reference `P` that is a local node is
rewritten by resolution, but the same `P` as the *outer base* of a
parameterized reference `P[(A)]` is left untouched, and the tuple of type
arguments is not recursed into — the whole parameterized reference passes
through unchanged, contradicting the claim that the outer name is rewritten
exactly like `Simple` and each argument resolved independently. -/
theorem C3_counterexample :
    update_annot "R" (.name "P") ["P", "A"] "" = .attribute (.name "R") "P" ∧
    update_annot "R" (.subscript (.name "P") (.tuple [.name "A"])) ["P", "A"] "" =
      .subscript (.name "P") (.tuple [.name "A"]) := by
  exact ⟨rfl, rfl⟩

/-- Claim C3 (amended) — Resolution of a `Parameterized` (Subscript)
reference recurses only into its slice, never rewriting the outer base
(even when the base is a locally declared node), and a multi-argument
(tuple) slice passes through unchanged. -/
theorem C3_amended_parameterized_resolution (r : String) (v sl : Expr)
    (es : List Expr) (nodes : List String) (parent : String) :
    update_annot r (.subscript v sl) nodes parent =
      .subscript v (update_annot r sl nodes parent) ∧
    update_annot r (.tuple es) nodes parent = .tuple es :=
  ⟨rfl, rfl⟩

/-- Claim C5 counterexample: the same abstract method `m` with parameter
annotation `F` is resolved differently depending on whether the field
declaration `F : int` appears after or before it in the class body — after:
the annotation is left as `Name "F"`; before: it is rewritten to `R.F`.
This contradicts resolution "against the complete set of names declared in
the immediately enclosing scope regardless of declaration order". -/
theorem C5_counterexample :
    (main_collect "R"
      [.asyncFunctionDef "m" [⟨"a", some (.name "F")⟩] [] [] none,
       .annAssign "F" (.name "int")] []).2.1 =
      [.asyncFunctionDef "m" [⟨"a", some (.name "F")⟩] (stub_body "m") [] none] ∧
    (main_collect "R"
      [.annAssign "F" (.name "int"),
       .asyncFunctionDef "m" [⟨"a", some (.name "F")⟩] [] [] none] []).2.1 =
      [.asyncFunctionDef "m" [⟨"a", some (return_attribute "R" "F")⟩]
        (stub_body "m") [] none] := by
  exact ⟨rfl, rfl⟩

/-- Claim C5 (amended) — Resolution is order-dependent: a method's type
references are resolved against only the field names declared *before* the
method in source order; a `Simple` reference to a locally declared field is
rewritten when the field declaration precedes the method and left unchanged
when it follows it. -/
theorem C5_amended_order_dependent_resolution (R F mNm aNm : String)
    (fAnn : Expr) :
    (main_collect R
      [.asyncFunctionDef mNm [⟨aNm, some (.name F)⟩] [] [] none,
       .annAssign F fAnn] []).2.1 =
      [.asyncFunctionDef mNm [⟨aNm, some (.name F)⟩] (stub_body mNm) [] none] ∧
    (main_collect R
      [.annAssign F fAnn,
       .asyncFunctionDef mNm [⟨aNm, some (.name F)⟩] [] [] none] []).2.1 =
      [.asyncFunctionDef mNm [⟨aNm, some (return_attribute R F)⟩]
        (stub_body mNm) [] none] := by
  constructor
  · simp [main_collect, replace_async_func, update_annot]
  · simp [main_collect, replace_async_func, update_annot]

/-- Claim C2 counterexample: for the two-level nesting
`Interface.Outer.Inner` with one abstract method, the flattening walk leaves
`Inner` *nested inside* `Outer`'s emitted body and rebases it to
`Interface.Outer.Inner` — the original, interface-qualified path of `Outer` —
not to `Outer.Inner` built from `Outer`'s emitted name as the claim states. -/
theorem C2_counterexample :
    parse_subclass "Interface"
      (.classDef "Outer" []
        [.classDef "Inner" [] [.asyncFunctionDef "act" [⟨"self", none⟩] [.passStmt] [] none]]) "" =
      .classDef "Outer" [.name "Interface.Outer"]
        [.classDef "Inner" [.name "Interface.Outer.Inner"]
          [.asyncFunctionDef "act" [⟨"self", none⟩] (stub_body "act") [] none]] ∧
    ("Interface.Outer.Inner" : String) ≠ "Outer.Inner" := by
  constructor
  · simp [parse_subclass, parse_body, replace_async_func]
  · decide

/-- Claim C2 (amended) — For a two-level-deep nested type
`Interface.Outer.Inner` containing one abstract method, the emitted output
contains `Outer` based on `Interface.Outer`, with `Inner` remaining nested
inside `Outer`'s body and based on `Interface.Outer.Inner` (the dotted path
through the original interface-qualified name of `Outer`), its method
stubbed. -/
theorem C2_amended_nested_rebasing (nm : String) (args : List Arg)
    (bd : List Stmt) (dec : List Expr) (rets : Option Expr) :
    parse_subclass "Interface"
      (.classDef "Outer" []
        [.classDef "Inner" [] [.asyncFunctionDef nm args bd dec rets]]) "" =
      .classDef "Outer" [.name "Interface.Outer"]
        [.classDef "Inner" [.name "Interface.Outer.Inner"]
          [replace_async_func "Interface" [] "Interface.Outer.Inner"
            (.asyncFunctionDef nm args bd dec rets)]] := by
  simp [parse_subclass, parse_body, replace_async_func]

/-- Helper: the canonical stub body contains no class declarations, so it
trivially satisfies the nonempty-class-body invariant. -/
theorem noEmpty_stub_body (nm : String) : noEmptyClassBodyL (stub_body nm) = true := by
  simp [stub_body, logErrorStmt, raiseNotImplemented, noEmptyClassBodyL, noEmptyClassBody]

/-- Helper: the flattening walk preserves the nonempty-class-body invariant:
pruning that empties a nested class body substitutes `[Pass()]`, stubbing
installs the (class-free) canonical body, and pass-through statements keep
their already-wellformed bodies. -/
theorem parse_body_noEmpty (r : String) (base : String) (body : List Stmt)
    (nodes : List String) :
    noEmptyClassBodyL body = true →
    noEmptyClassBodyL (parse_body r base body nodes) = true := by
  induction base, body, nodes using parse_body.induct r with
  | case1 base x =>
      intro _
      simp [parse_body, noEmptyClassBodyL]
  | case2 base rest nodes e ih =>
      intro h
      simp only [noEmptyClassBodyL, noEmptyClassBody, Bool.and_eq_true] at h
      simp [parse_body, ih h.2]
  | case3 base rest nodes args bd ih =>
      intro h
      simp only [noEmptyClassBodyL, Bool.and_eq_true] at h
      simp [parse_body, ih h.2]
  | case4 base rest nodes nm args bd hnm ih =>
      intro h
      simp only [noEmptyClassBodyL, noEmptyClassBody, Bool.and_eq_true] at h
      simp [parse_body, hnm, noEmptyClassBodyL, noEmptyClassBody, ih h.2, h.1]
  | case5 base rest nodes tgt ann ih =>
      intro h
      simp only [noEmptyClassBodyL, Bool.and_eq_true] at h
      simp [parse_body, ih h.2]
  | case6 base rest nodes nm _bs bd newBase ihbd ihrest =>
      intro h
      simp only [noEmptyClassBodyL, noEmptyClassBody, Bool.and_eq_true] at h
      by_cases hnb : (parse_body r (base ++ "." ++ nm) bd []).isEmpty
      · simp [parse_body, hnb, noEmptyClassBodyL, noEmptyClassBody, ihrest h.2]
      · simp [parse_body, hnb, noEmptyClassBodyL, noEmptyClassBody, ihrest h.2,
          ihbd h.1.2]
  | case7 base rest nodes nm args bd dec rets ih =>
      intro h
      simp only [noEmptyClassBodyL, noEmptyClassBody, Bool.and_eq_true] at h
      simp [parse_body, replace_async_func, noEmptyClassBodyL, noEmptyClassBody,
        noEmpty_stub_body, ih h.2, stub_body, logErrorStmt, raiseNotImplemented]
  | case8 base rest nodes s h1 h2 h3 h4 h5 ih =>
      intro h
      simp only [noEmptyClassBodyL, Bool.and_eq_true] at h
      match s, h1, h2, h3, h4, h5 with
      | .raiseStmt e, _, _, _, _, _ =>
          simp [parse_body, noEmptyClassBodyL, noEmptyClassBody, ih h.2]
      | .passStmt, _, _, _, _, _ =>
          simp [parse_body, noEmptyClassBodyL, noEmptyClassBody, ih h.2]
      | .expr e, h1, _, _, _, _ => exact absurd rfl (h1 e)
      | .functionDef nm args bd, _, h2, _, _, _ => exact absurd rfl (h2 nm args bd)
      | .annAssign t a, _, _, h3, _, _ => exact absurd rfl (h3 t a)
      | .classDef nm bs bd, _, _, _, h4, _ => exact absurd rfl (h4 nm bs bd)
      | .asyncFunctionDef nm args bd dec rets, _, _, _, _, h5 =>
          exact absurd rfl (h5 nm args bd dec rets)

/-- Claim C7 — Non-emptiness: processing a nested type declaration whose
(parser-produced, hence wellformed) body may be pruned down to nothing never
emits an empty body: every class declaration in the result has at least one
statement, and when pruning removes every statement the emitted body is
exactly the `Pass()` placeholder. -/
theorem C7_no_empty_bodies (r parent nm : String) (bs : List Expr)
    (bd : List Stmt) (hwf : noEmptyClassBodyL bd = true) :
    noEmptyClassBody (parse_subclass r (.classDef nm bs bd) parent) = true ∧
    (parse_body r ((if parent = "" then r else parent) ++ "." ++ nm) bd [] = [] →
      parse_subclass r (.classDef nm bs bd) parent =
        .classDef nm [.name ((if parent = "" then r else parent) ++ "." ++ nm)]
          [.passStmt]) := by
  constructor
  · by_cases hnb :
      (parse_body r ((if parent = "" then r else parent) ++ "." ++ nm) bd []).isEmpty
    · simp [parse_subclass, hnb, noEmptyClassBody, noEmptyClassBodyL]
    · simp [parse_subclass, hnb, noEmptyClassBody, noEmptyClassBodyL,
        parse_body_noEmpty r _ bd [] hwf]
  · intro hempty
    simp [parse_subclass, hempty]

/-- Witness for C7: a nested type whose body is a single docstring
expression — pruning empties it and the placeholder is substituted. -/
theorem C7_no_empty_bodies_witness :
    noEmptyClassBodyL [Stmt.expr (.constant "docstring")] = true ∧
    noEmptyClassBody
      (parse_subclass "Gizmo" (.classDef "Properties" [] [.expr (.constant "docstring")]) "") =
      true :=
  ⟨by decide,
    (C7_no_empty_bodies "Gizmo" "" "Properties" [] [.expr (.constant "docstring")]
      (by decide)).1⟩

/-- Helper: abstract-method counting distributes over list append. -/
theorem countAsyncL_append (a b : List Stmt) :
    countAsyncL (a ++ b) = countAsyncL a + countAsyncL b := by
  induction a with
  | nil => simp [countAsyncL]
  | cons s rest ih => simp [countAsyncL, ih]; omega

/-- Helper: canonicality of stubs distributes over list append. -/
theorem stubsCanonicalL_append (a b : List Stmt) :
    stubsCanonicalL (a ++ b) = (stubsCanonicalL a && stubsCanonicalL b) := by
  induction a with
  | nil => simp [stubsCanonicalL]
  | cons s rest ih => simp [stubsCanonicalL, ih, Bool.and_assoc]

/-- Helper: the body installed by stubbing is the canonical two-step stub. -/
theorem isCanonicalStubBody_stub_body (nm : String) :
    isCanonicalStubBody nm (stub_body nm) = true := by
  simp [stub_body, logErrorStmt, raiseNotImplemented, isCanonicalStubBody]

/-- Helper: stubbing an async method yields an async method of the same name
whose body is the canonical stub and whose decorator list is empty. -/
theorem replace_async_func_eq (r : String) (nodes : List String)
    (parent nm : String) (args : List Arg) (bd : List Stmt) (dec : List Expr)
    (rets : Option Expr) :
    ∃ args2 rets2,
      replace_async_func r nodes parent (.asyncFunctionDef nm args bd dec rets) =
        .asyncFunctionDef nm args2 (stub_body nm) [] rets2 :=
  ⟨_, _, rfl⟩

/-- Helper: the flattening walk preserves the abstract-method count (every
async method is stubbed exactly once, nothing else produces or destroys
one), and all its output stubs are canonical — assuming no async definition
hides inside a synchronous function body. -/
theorem parse_body_count (r : String) (base : String) (body : List Stmt)
    (nodes : List String) :
    wfNoAsyncInFnL body = true →
    countAsyncL (parse_body r base body nodes) = countAsyncL body ∧
    stubsCanonicalL (parse_body r base body nodes) = true := by
  induction base, body, nodes using parse_body.induct r with
  | case1 base x =>
      intro _
      simp [parse_body, countAsyncL, stubsCanonicalL]
  | case2 base rest nodes e ih =>
      intro h
      simp only [wfNoAsyncInFnL, wfNoAsyncInFn, Bool.and_eq_true] at h
      have := ih h.2
      simp [parse_body, countAsyncL, countAsyncStmt, this.1, this.2]
  | case3 base rest nodes args bd ih =>
      intro h
      simp only [wfNoAsyncInFnL, wfNoAsyncInFn, Bool.and_eq_true] at h
      have := ih h.2
      simp [parse_body, countAsyncL, countAsyncStmt, this.1, this.2]
  | case4 base rest nodes nm args bd hnm ih =>
      intro h
      simp only [wfNoAsyncInFnL, wfNoAsyncInFn, Bool.and_eq_true] at h
      have := ih h.2
      simp [parse_body, hnm, countAsyncL, countAsyncStmt, stubsCanonicalL,
        stubsCanonical, this.1, this.2, h.1]
  | case5 base rest nodes tgt ann ih =>
      intro h
      simp only [wfNoAsyncInFnL, wfNoAsyncInFn, Bool.and_eq_true] at h
      have := ih h.2
      simp [parse_body, countAsyncL, countAsyncStmt, this.1, this.2]
  | case6 base rest nodes nm _bs bd newBase ihbd ihrest =>
      intro h
      simp only [wfNoAsyncInFnL, wfNoAsyncInFn, Bool.and_eq_true] at h
      have hbd := ihbd h.1
      have hrest := ihrest h.2
      by_cases hnb : (parse_body r (base ++ "." ++ nm) bd []).isEmpty
      · have hnil : parse_body r (base ++ "." ++ nm) bd [] = [] :=
          List.isEmpty_iff.mp hnb
        have hzero : countAsyncL bd = 0 := by
          have := hbd.1
          rw [hnil] at this
          simpa [countAsyncL] using this.symm
        simp [parse_body, hnb, countAsyncL, countAsyncStmt, stubsCanonicalL,
          stubsCanonical, hrest.1, hrest.2, hzero]
      · simp [parse_body, hnb, countAsyncL, countAsyncStmt, stubsCanonicalL,
          stubsCanonical, hrest.1, hrest.2, hbd.1, hbd.2]
  | case7 base rest nodes nm args bd dec rets ih =>
      intro h
      simp only [wfNoAsyncInFnL, wfNoAsyncInFn, Bool.and_eq_true] at h
      have hrest := ih h.2
      obtain ⟨args2, rets2, heq⟩ := replace_async_func_eq r nodes base nm args bd dec rets
      simp only [parse_body]
      rw [heq]
      simp [countAsyncL, countAsyncStmt, stubsCanonicalL, stubsCanonical,
        isCanonicalStubBody_stub_body, hrest.1, hrest.2]
  | case8 base rest nodes s h1 h2 h3 h4 h5 ih =>
      intro h
      simp only [wfNoAsyncInFnL, Bool.and_eq_true] at h
      have hrest := ih h.2
      match s, h1, h2, h3, h4, h5 with
      | .raiseStmt e, _, _, _, _, _ =>
          simp [parse_body, countAsyncL, countAsyncStmt, stubsCanonicalL,
            stubsCanonical, hrest.1, hrest.2]
      | .passStmt, _, _, _, _, _ =>
          simp [parse_body, countAsyncL, countAsyncStmt, stubsCanonicalL,
            stubsCanonical, hrest.1, hrest.2]
      | .expr e, h1, _, _, _, _ => exact absurd rfl (h1 e)
      | .functionDef nm args bd, _, h2, _, _, _ => exact absurd rfl (h2 nm args bd)
      | .annAssign t a, _, _, h3, _, _ => exact absurd rfl (h3 t a)
      | .classDef nm bs bd, _, _, _, h4, _ => exact absurd rfl (h4 nm bs bd)
      | .asyncFunctionDef nm args bd dec rets, _, _, _, _, h5 =>
          exact absurd rfl (h5 nm args bd dec rets)

/-- Helper: flattening one nested class preserves its abstract-method count
and emits only canonical stubs. -/
theorem parse_subclass_count (r parent nm : String) (bs : List Expr)
    (bd : List Stmt) (hwf : wfNoAsyncInFnL bd = true) :
    countAsyncStmt (parse_subclass r (.classDef nm bs bd) parent) = countAsyncL bd ∧
    stubsCanonical (parse_subclass r (.classDef nm bs bd) parent) = true := by
  have hbd := parse_body_count r ((if parent = "" then r else parent) ++ "." ++ nm)
    bd [] hwf
  by_cases hnb :
    (parse_body r ((if parent = "" then r else parent) ++ "." ++ nm) bd []).isEmpty
  · have hnil := List.isEmpty_iff.mp hnb
    have hzero : countAsyncL bd = 0 := by
      have := hbd.1
      rw [hnil] at this
      simpa [countAsyncL] using this.symm
    simp [parse_subclass, hnb, countAsyncStmt, countAsyncL, stubsCanonical,
      stubsCanonicalL, hzero]
  · simp [parse_subclass, hnb, countAsyncStmt, stubsCanonical, hbd.1, hbd.2]

/-- Helper: `main`'s loop over the interface class body: the flattened
subclasses and the stubbed methods together account for exactly the abstract
methods of the body (top-level async methods plus those of nested classes),
all emitted stubs canonical — for any state of the running `nodes` set. -/
theorem main_collect_count (r : String) (body : List Stmt) :
    ∀ nodes, wfNoAsyncInFnL body = true →
    countAsyncL (main_collect r body nodes).1 +
      countAsyncL (main_collect r body nodes).2.1 = countAsyncL body ∧
    stubsCanonicalL (main_collect r body nodes).1 = true ∧
    stubsCanonicalL (main_collect r body nodes).2.1 = true := by
  induction body with
  | nil =>
      intro nodes _
      simp [main_collect, countAsyncL, stubsCanonicalL]
  | cons c rest ih =>
      intro nodes h
      cases c with
      | classDef nm bs bd =>
          simp only [wfNoAsyncInFnL, wfNoAsyncInFn, Bool.and_eq_true] at h
          have hc := parse_subclass_count r "" nm bs bd h.1
          have hr := ih nodes h.2
          refine ⟨?_, ?_, ?_⟩
          · simp only [main_collect, countAsyncL]
            rw [hc.1]
            simp only [countAsyncStmt]
            have h1 := hr.1
            omega
          · simp only [main_collect, stubsCanonicalL]
            rw [hc.2]
            simp [hr.2.1]
          · simp only [main_collect]
            exact hr.2.2
      | asyncFunctionDef nm args bd dec rets =>
          simp only [wfNoAsyncInFnL, wfNoAsyncInFn, Bool.and_eq_true, true_and] at h
          have hr := ih nodes h
          obtain ⟨args2, rets2, heq⟩ :=
            replace_async_func_eq r nodes "" nm args bd dec rets
          refine ⟨?_, ?_, ?_⟩
          · simp only [main_collect, countAsyncL]
            rw [heq]
            simp only [countAsyncStmt]
            have h1 := hr.1
            omega
          · simp only [main_collect]
            exact hr.2.1
          · simp only [main_collect, stubsCanonicalL]
            rw [heq]
            simp [stubsCanonical, isCanonicalStubBody_stub_body, hr.2.2]
      | annAssign tgt ann =>
          simp only [wfNoAsyncInFnL, wfNoAsyncInFn, Bool.and_eq_true, true_and] at h
          simpa [main_collect, countAsyncL, countAsyncStmt] using ih (tgt :: nodes) h
      | expr e =>
          simp only [wfNoAsyncInFnL, wfNoAsyncInFn, Bool.and_eq_true, true_and] at h
          simpa [main_collect, countAsyncL, countAsyncStmt] using ih nodes h
      | functionDef nm args bd =>
          simp only [wfNoAsyncInFnL, wfNoAsyncInFn, Bool.and_eq_true] at h
          simpa [main_collect, countAsyncL, countAsyncStmt] using ih nodes h.2
      | raiseStmt e =>
          simp only [wfNoAsyncInFnL, wfNoAsyncInFn, Bool.and_eq_true, true_and] at h
          simpa [main_collect, countAsyncL, countAsyncStmt] using ih nodes h
      | passStmt =>
          simp only [wfNoAsyncInFnL, wfNoAsyncInFn, Bool.and_eq_true, true_and] at h
          simpa [main_collect, countAsyncL, countAsyncStmt] using ih nodes h

/-- Helper: stubbing the direct async methods of a base class body yields
exactly one canonical stub per direct async method. -/
theorem stubBaseAsyncs_count (body : List Stmt) :
    countAsyncL (stubBaseAsyncs body) = countDirectAsyncL body ∧
    stubsCanonicalL (stubBaseAsyncs body) = true := by
  induction body with
  | nil => simp [stubBaseAsyncs, countAsyncL, countDirectAsyncL, stubsCanonicalL]
  | cons c rest ih =>
      cases c with
      | asyncFunctionDef nm args bd dec rets =>
          obtain ⟨args2, rets2, heq⟩ :=
            replace_async_func_eq "" [] "" nm args bd dec rets
          refine ⟨?_, ?_⟩
          · simp only [stubBaseAsyncs, countAsyncL, countDirectAsyncL]
            rw [heq]
            simp only [countAsyncStmt]
            have h1 := ih.1
            omega
          · simp only [stubBaseAsyncs, stubsCanonicalL]
            rw [heq]
            simp [stubsCanonical, isCanonicalStubBody_stub_body, ih.2]
      | expr e => simpa [stubBaseAsyncs, countDirectAsyncL] using ih
      | annAssign tgt ann => simpa [stubBaseAsyncs, countDirectAsyncL] using ih
      | functionDef nm args bd => simpa [stubBaseAsyncs, countDirectAsyncL] using ih
      | classDef nm bs bd => simpa [stubBaseAsyncs, countDirectAsyncL] using ih
      | raiseStmt e => simpa [stubBaseAsyncs, countDirectAsyncL] using ih
      | passStmt => simpa [stubBaseAsyncs, countDirectAsyncL] using ih

/-- Helper: the base-type module contributes exactly its category-wide
abstract methods (async methods directly inside top-level classes), all
stubbed canonically. -/
theorem collectBase_count (body : List Stmt) :
    countAsyncL (collectBase body) = countAsyncBaseL body ∧
    stubsCanonicalL (collectBase body) = true := by
  induction body with
  | nil => simp [collectBase, countAsyncL, countAsyncBaseL, stubsCanonicalL]
  | cons c rest ih =>
      cases c with
      | classDef nm bs bd =>
          have hb := stubBaseAsyncs_count bd
          refine ⟨?_, ?_⟩
          · simp only [collectBase, countAsyncBaseL, countAsyncL_append, hb.1, ih.1]
          · simp only [collectBase, stubsCanonicalL_append, hb.2, ih.2,
              Bool.and_self]
      | expr e => simpa [collectBase, countAsyncBaseL] using ih
      | annAssign tgt ann => simpa [collectBase, countAsyncBaseL] using ih
      | functionDef nm args bd => simpa [collectBase, countAsyncBaseL] using ih
      | asyncFunctionDef nm args bd dec rets =>
          simpa [collectBase, countAsyncBaseL] using ih
      | raiseStmt e => simpa [collectBase, countAsyncBaseL] using ih
      | passStmt => simpa [collectBase, countAsyncBaseL] using ih

/-- Claim C1 — Stub count invariant: for an interface model with exactly `N`
abstract methods (the async methods of the interface class body, including
those of its nested types, plus the merged category-wide async methods of
the base-type module), the emitted document contains exactly `N` method
stubs, and every async method it contains carries the canonical two-step
body — the diagnostic naming the method as unimplemented followed by the
unconditional `NotImplementedError` raise (and synchronous pass-through
functions contain no async definitions at all). -/
theorem C1_stub_count_invariant (r : String) (interfaceBody baseBody : List Stmt)
    (N : Nat) (hwf : wfNoAsyncInFnL interfaceBody = true)
    (hN : countAsyncL interfaceBody + countAsyncBaseL baseBody = N) :
    countAsyncL (emittedStmts r interfaceBody baseBody) = N ∧
    stubsCanonicalL (emittedStmts r interfaceBody baseBody) = true := by
  have hm := main_collect_count r interfaceBody [] hwf
  have hb := collectBase_count baseBody
  constructor
  · simp only [emittedStmts, countAsyncL_append]
    omega
  · simp only [emittedStmts, stubsCanonicalL_append, hm.2.1, hm.2.2, hb.2,
      Bool.and_self]

/-- Witness for C1: an interface with one subtype-specific abstract method
and a nested type holding another, plus one category-wide base method —
three stubs are emitted, all canonical. -/
theorem C1_stub_count_invariant_witness :
    wfNoAsyncInFnL
        [.asyncFunctionDef "get_position" [⟨"self", none⟩] [.passStmt] [] none,
         .classDef "Properties" []
           [.asyncFunctionDef "get_props" [⟨"self", none⟩] [.passStmt] [] none]] = true ∧
    countAsyncL
        [.asyncFunctionDef "get_position" [⟨"self", none⟩] [.passStmt] [] none,
         .classDef "Properties" []
           [.asyncFunctionDef "get_props" [⟨"self", none⟩] [.passStmt] [] none]] +
      countAsyncBaseL
        [.classDef "ComponentBase" []
          [.asyncFunctionDef "do_command" [⟨"self", none⟩] [.passStmt] [] none]] = 3 ∧
    (countAsyncL (emittedStmts "Gizmo"
        [.asyncFunctionDef "get_position" [⟨"self", none⟩] [.passStmt] [] none,
         .classDef "Properties" []
           [.asyncFunctionDef "get_props" [⟨"self", none⟩] [.passStmt] [] none]]
        [.classDef "ComponentBase" []
          [.asyncFunctionDef "do_command" [⟨"self", none⟩] [.passStmt] [] none]]) = 3 ∧
      stubsCanonicalL (emittedStmts "Gizmo"
        [.asyncFunctionDef "get_position" [⟨"self", none⟩] [.passStmt] [] none,
         .classDef "Properties" []
           [.asyncFunctionDef "get_props" [⟨"self", none⟩] [.passStmt] [] none]]
        [.classDef "ComponentBase" []
          [.asyncFunctionDef "do_command" [⟨"self", none⟩] [.passStmt] [] none]]) = true) :=
  ⟨by decide, by decide,
    C1_stub_count_invariant "Gizmo"
      [.asyncFunctionDef "get_position" [⟨"self", none⟩] [.passStmt] [] none,
       .classDef "Properties" []
         [.asyncFunctionDef "get_props" [⟨"self", none⟩] [.passStmt] [] none]]
      [.classDef "ComponentBase" []
        [.asyncFunctionDef "do_command" [⟨"self", none⟩] [.passStmt] [] none]]
      3 (by decide) (by decide)⟩

/-- Claim C6 — Import set determinism: two runs of the pipeline on the same
interface model may enumerate the deduplicated import set in different
orders (`list(set(imports))` is iteration-order nondeterministic across
process runs), but after the unconditional import sort the two emitted
documents have byte-identical import ordering: the final documents are
equal. -/
theorem C6_import_order_deterministic (imports o1 o2 headerLines restLines : List String)
    (h1 : o1.Nodup) (h2 : o2.Nodup)
    (hm1 : ∀ x, x ∈ o1 ↔ x ∈ imports) (hm2 : ∀ x, x ∈ o2 ↔ x ∈ imports)
    (himp : ∀ x ∈ imports, isImportLine x = true) :
    isortCode (buildDocument headerLines o1 restLines) =
      isortCode (buildDocument headerLines o2 restLines) := by
  have hp : o1.Perm o2 :=
    (List.perm_ext_iff_of_nodup h1 h2).mpr fun a => (hm1 a).trans (hm2 a).symm
  have hf1 : o1.filter (fun l => isImportLine l) = o1 :=
    List.filter_eq_self.mpr fun a ha => himp a ((hm1 a).mp ha)
  have hf2 : o2.filter (fun l => isImportLine l) = o2 :=
    List.filter_eq_self.mpr fun a ha => himp a ((hm2 a).mp ha)
  have hn1 : o1.filter (fun l => !isImportLine l) = [] := by
    rw [List.filter_eq_nil_iff]
    intro a ha
    simp [himp a ((hm1 a).mp ha)]
  have hn2 : o2.filter (fun l => !isImportLine l) = [] := by
    rw [List.filter_eq_nil_iff]
    intro a ha
    simp [himp a ((hm2 a).mp ha)]
  simp only [isortCode, buildDocument, List.filter_append, hf1, hf2, hn1, hn2]
  have hperm :
      (headerLines.filter (fun l => isImportLine l) ++ (o1 ++ restLines.filter (fun l => isImportLine l))).Perm
        (headerLines.filter (fun l => isImportLine l) ++ (o2 ++ restLines.filter (fun l => isImportLine l))) :=
    (List.Perm.refl _).append (hp.append (List.Perm.refl _))
  have hsorteq :
      List.insertionSort (· ≤ ·)
          (headerLines.filter (fun l => isImportLine l) ++ (o1 ++ restLines.filter (fun l => isImportLine l))) =
        List.insertionSort (· ≤ ·)
          (headerLines.filter (fun l => isImportLine l) ++ (o2 ++ restLines.filter (fun l => isImportLine l))) := by
    refine List.eq_of_perm_of_sorted ?_ (List.sorted_insertionSort _ _)
      (List.sorted_insertionSort _ _)
    exact (List.perm_insertionSort _ _).trans
      (hperm.trans (List.perm_insertionSort _ _).symm)
  simp only [List.append_assoc, hsorteq]

/-- Witness for C6: the same two-element import set enumerated in its two
possible orders yields the same final document. -/
theorem C6_import_order_deterministic_witness :
    (["import b", "import a"] : List String).Nodup ∧
    isortCode (buildDocument ["from typing import ClassVar"]
        ["import b", "import a"] ["class MyGizmo:"]) =
      isortCode (buildDocument ["from typing import ClassVar"]
        ["import a", "import b"] ["class MyGizmo:"]) :=
  ⟨by decide,
    C6_import_order_deterministic ["import a", "import b"]
      ["import b", "import a"] ["import a", "import b"]
      ["from typing import ClassVar"] ["class MyGizmo:"]
      (by decide) (by decide)
      (by intro x; simp only [List.mem_cons, List.not_mem_nil, or_false]; tauto)
      (fun x => Iff.rfl)
      (by decide)⟩

/-- Claim C9 counterexample: when the reformatter fails, the returned text is
*not* the unformatted emitted text — import sorting still runs and reorders
the document, so on a document whose import line follows another line the
returned text differs from the raw text. -/
theorem C9_counterexample :
    finalizeOutput (fun _ => none) ["class MyGizmo:", "import a"] ≠
      ["class MyGizmo:", "import a"] := by
  decide

/-- Claim C9 (amended) — Failure of the external reformatting collaborator
is never fatal: when `black` fails the failure is caught and ignored, the
run completes (the finalization is a total function), and the returned text
is the import-sorted form of the unformatted emitted text (import sorting is
applied regardless of the reformatter's outcome). -/
theorem C9_amended_formatter_failure (black : List String → Option (List String))
    (raw : List String) (h : black raw = none) :
    finalizeOutput black raw = isortCode raw := by
  simp [finalizeOutput, h]

/-- Witness for C9 at a concrete failing reformatter. -/
theorem C9_amended_formatter_failure_witness :
    (fun (_ : List String) => (none : Option (List String))) ["import a"] = none ∧
    finalizeOutput (fun _ => none) ["import a"] = isortCode ["import a"] :=
  ⟨rfl, C9_amended_formatter_failure (fun _ => none) ["import a"] rfl⟩

/-- Claim C8 counterexample: resolving the parameterized reference `P[F]`
with `F` a local node returns the *same* object identity it was given
(address 0) and mutates that object in place (its slice field now points at
the freshly built qualified reference), contradicting "the rewritten
reference returned is a new value, never the same identity as its input, and
no component mutates a TypeRef in place". -/
theorem C8_counterexample :
    (update_annot_H "R" ["F"] "" 2 sampleHeap 0).2 = 0 ∧
    (update_annot_H "R" ["F"] "" 2 sampleHeap 0).1.mem 0 =
      some (.subscript 1 4) ∧
    sampleHeap.mem 0 = some (.subscript 1 2) :=
  ⟨rfl, rfl, rfl⟩

/-- Claim C8 (amended) — Copy-on-write holds only for the matched-`Simple`
rewrite: resolving a `Name` that is a local node returns a freshly allocated
object (an address at the old allocation frontier, distinct from every live
input address), but resolving a `Subscript` mutates it in place and returns
it with the same identity as the input. -/
theorem C8_amended_copy_on_write (r p id : String) (nodes : List String)
    (fuel : Nat) (h : Heap) (a v sl : Nat) :
    (h.mem a = some (.subscript v sl) →
      (update_annot_H r nodes p (fuel + 1) h a).2 = a) ∧
    (h.mem a = some (.name id) → id ∈ nodes → a < h.next →
      (update_annot_H r nodes p (fuel + 1) h a).2 = h.next + 1 ∧
      (update_annot_H r nodes p (fuel + 1) h a).2 ≠ a) := by
  constructor
  · intro hm
    simp [update_annot_H, hm]
  · intro hm hid ha
    simp [update_annot_H, hm, hid, return_attribute_H, Heap.alloc]
    omega

/-- Witness for C8: on `sampleHeap`, resolving the `Subscript` at address 0
returns address 0 itself, while resolving the matched `Name` at address 2
returns the fresh address 4, distinct from its input address. -/
theorem C8_amended_copy_on_write_witness :
    (update_annot_H "R" ["F"] "" 1 sampleHeap 0).2 = 0 ∧
    ((update_annot_H "R" ["F"] "" 1 sampleHeap 2).2 = 4 ∧
      (update_annot_H "R" ["F"] "" 1 sampleHeap 2).2 ≠ 2) :=
  ⟨(C8_amended_copy_on_write "R" "" "F" ["F"] 0 sampleHeap 0 1 2).1 rfl,
    (C8_amended_copy_on_write "R" "" "F" ["F"] 0 sampleHeap 2 1 2).2 rfl
      (by decide) (by decide)⟩
